import Mathlib

/-!
Shallow embedding of the intrusive reference-counting library
(src/ref_counter.h, namespace stdext, and the historical variant
src/IntrusivePtr.h, namespace Cmm).

Machine integers: `int_least32_t` counts are modeled as `Int` (overflow is
irrelevant to the claims about the signed counters); the `unsigned int`
count of the Cmm variant is modeled as `Nat` with explicit `% 2^32`
wraparound, where the wrap is exactly what is at stake.

Undefined behaviour (calling a member function of an object after
`delete this` has run) is modeled as a contract-violation error, as is a
failing `assert`.
-/

namespace RefSpec

/-- Contract violations: a failed `assert` in `decrement`, or a member call
on an object whose storage was already reclaimed by `delete this` (undefined
behaviour in the C++ source). -/
inductive CVio where
  | assertNegative : CVio
  | useAfterFree : CVio
deriving DecidableEq, Repr

/-! ### Counter policy: stdext::thread_safe_counter

`value_type` is `int_least32_t`, modeled as `Int`.  Each operation returns
the C++ return value together with the new counter value. -/

/-- From stdext::thread_safe_counter::load: `counter.load(acquire)`. -/
def thread_safe_counter.load (counter : Int) : Int :=
  counter

/-- From stdext::thread_safe_counter::increment:
`counter.fetch_add(1, acq_rel) + 1`; returns (return value, new counter). -/
def thread_safe_counter.increment (counter : Int) : Int × Int :=
  (counter + 1, counter + 1)

/-- From stdext::thread_safe_counter::decrement:
`counter.fetch_add(-1, acq_rel) - 1`; returns (return value, new counter). -/
def thread_safe_counter.decrement (counter : Int) : Int × Int :=
  (counter - 1, counter - 1)

/-- From stdext::thread_safe_counter::compare_exchange_weak: compares
`counter` with `expected`; on success stores `desired`, on failure loads the
current value into `expected`.  Returns (success, new counter, new expected).
Spurious failures of the weak CAS only cause an extra retry with an unchanged
value and are not modeled. -/
def thread_safe_counter.compare_exchange_weak
    (counter expected desired : Int) : Bool × Int × Int :=
  if counter = expected then (true, desired, expected)
  else (false, counter, counter)

/-! ### stdext::ref_counter (strong-only counted object) -/

/-- State of one `stdext::ref_counter<thread_safe_counter>` object:
its embedded count (`count_`), whether `delete this` has run (`destroyed`),
and how many times the disposal hook `on_final_destroy` has been invoked. -/
structure RefCounter where
  count : Int
  destroyed : Bool
  hookRuns : Nat
deriving DecidableEq, Repr

/-- From stdext::ref_counter::ref_counter(): `count_(0)`. -/
def ref_counter.mk : RefCounter :=
  { count := 0, destroyed := false, hookRuns := 0 }

/-- From stdext::ref_counter::ref_counter(const ref_counter&): the copy
constructor ignores its source and initializes `count_(0)`. -/
def ref_counter.copyCtor (_src : RefCounter) : RefCounter :=
  { count := 0, destroyed := false, hookRuns := 0 }

/-- From stdext::ref_counter::operator=(const ref_counter&): the body is
`return *this;` — neither object's count is touched.  Returns the pair
(target after, source after). -/
def ref_counter.assign (dst src : RefCounter) : RefCounter × RefCounter :=
  (dst, src)

/-- From stdext::ref_counter::increment: `counter_policy::increment(count_)`.
Calling it on reclaimed storage is undefined behaviour, modeled as an error.
Returns (return value, new state). -/
def ref_counter.increment (s : RefCounter) : Except CVio (Int × RefCounter) :=
  if s.destroyed then .error .useAfterFree
  else
    let r := thread_safe_counter.increment s.count
    .ok (r.1, { s with count := r.2 })

/-- From stdext::ref_counter::decrement: decrements, `assert(count >= 0)`
(modeled as an error when the assertion fails), and invokes the disposal
hook `on_final_destroy` exactly when the result is zero; the default hook is
`delete this`, modeled by setting `destroyed`.  Returns (return value, new
state). -/
def ref_counter.decrement (s : RefCounter) : Except CVio (Int × RefCounter) :=
  if s.destroyed then .error .useAfterFree
  else
    let c := (thread_safe_counter.decrement s.count).1
    if c < 0 then .error .assertNegative
    else if c = 0 then
      .ok (c, { count := c, destroyed := true, hookRuns := s.hookRuns + 1 })
    else
      .ok (c, { s with count := c })

/-- From stdext::ref_counter::use_count: `counter_policy::load(count_)`. -/
def ref_counter.use_count (s : RefCounter) : Int :=
  thread_safe_counter.load s.count

/-! ### Sequences of increments and decrements -/

/-- A client-visible counting operation on one counted object. -/
inductive Op where
  | inc : Op
  | dec : Op
deriving DecidableEq, Repr

/-- Runs a sequence of increment/decrement calls on a ref_counter object. -/
def runOps (s : RefCounter) : List Op → Except CVio RefCounter
  | [] => .ok s
  | Op.inc :: rest => do
    let r ← ref_counter.increment s
    runOps r.2 rest
  | Op.dec :: rest => do
    let r ← ref_counter.decrement s
    runOps r.2 rest

/-- Number of increments in an operation sequence. -/
def numIncs (ops : List Op) : Nat :=
  ops.countP (· = Op.inc)

/-- Number of decrements in an operation sequence. -/
def numDecs (ops : List Op) : Nat :=
  ops.countP (· = Op.dec)

/-! ### Cmm historical variant (src/IntrusivePtr.h)

Its counter policies use `unsigned int`; arithmetic wraps modulo `2^32`. -/

/-- From Cmm::thread_safe_counter::decrement: `--counter` on a
`std::atomic<unsigned int>`; decrementing zero wraps to `2^32 - 1` and the
result is returned as an ordinary value — there is no assertion. -/
def Cmm.thread_safe_counter.decrement (counter : Nat) : Nat :=
  (counter + (2 ^ 32 - 1)) % 2 ^ 32

/-- From Cmm::ref_counter_release: decrements and deletes the object iff the
(wrapped, unsigned) result is zero.  Returns (new counter, deleted?). -/
def Cmm.ref_counter_release (counter : Nat) : Nat × Bool :=
  let c := Cmm.thread_safe_counter.decrement counter
  (c, c = 0)

/-! ### stdext::ref_ctrl_block and stdext::ref_weak_counter -/

/-- One `stdext::ref_ctrl_block<thread_safe_counter>`: the inherited
`ref_counter` count (`own`, the block's own reference count), the mirrored
strong count (`strong`), and the cached raw identity of the owning object
(`ptr`; objects are identified by `Nat` ids, the null pointer is `none`).
`blkId` identifies this allocation, so that distinct blocks can be told
apart. -/
structure ref_ctrl_block where
  blkId : Nat
  own : Int
  strong : Int
  ptr : Option Nat
deriving DecidableEq, Repr

/-- State of one `stdext::ref_weak_counter<thread_safe_counter>` object:
its identity, whether its storage is still alive, its control block (the
`ctrl_block_` member is installed in the constructor and never reassigned),
and whether the control block's own storage is still alive. -/
structure WeakObj where
  objId : Nat
  alive : Bool
  cb : ref_ctrl_block
  cbAlive : Bool
deriving DecidableEq, Repr

/-- From stdext::ref_weak_counter::ref_weak_counter():
`ctrl_block_(new ref_ctrl_block<counter_policy>(this))`.  The block is
allocated eagerly, in the constructor: base count 0 then incremented once by
the `ref_count_ptr` member taking its reference (`own = 1`), `strong = 0`,
`ptr = this`.  Returns the new object together with the number of control
blocks allocated while constructing it. -/
def ref_weak_counter.mk (objId blkId : Nat) : WeakObj × Nat :=
  ({ objId := objId
     alive := true
     cb := { blkId := blkId, own := 1, strong := 0, ptr := some objId }
     cbAlive := true }, 1)

/-- From stdext::ref_weak_counter::ref_weak_counter(const ref_weak_counter&):
the copy constructor ignores its source and allocates a fresh control block
for the new object, exactly like the default constructor. -/
def ref_weak_counter.copyCtor (_src : WeakObj) (objId blkId : Nat) :
    WeakObj × Nat :=
  ref_weak_counter.mk objId blkId

/-- From stdext::ref_weak_counter::operator=(const ref_weak_counter&): the
body is `return *this;` — no state of either object changes. -/
def ref_weak_counter.assign (dst src : WeakObj) : WeakObj × WeakObj :=
  (dst, src)

/-- From stdext::ref_weak_counter::on_final_destroy: the default hook is
`delete this`.  The destructor `~ref_weak_counter` destroys the
`ctrl_block_` member (a `ref_count_ptr`), which decrements the control
block's own count and deletes the block if that count reaches zero.  The
cached identity `ctrl_block_->ptr` is never written. -/
def ref_weak_counter.on_final_destroy (s : WeakObj) : WeakObj :=
  let own2 := (thread_safe_counter.decrement s.cb.own).1
  { s with
    alive := false
    cb := { s.cb with own := own2 }
    cbAlive := if own2 = 0 then false else s.cbAlive }

/-- From stdext::ref_weak_counter::increment:
`counter_policy::increment(ctrl_block_->strong)`. -/
def ref_weak_counter.increment (s : WeakObj) : Except CVio (Int × WeakObj) :=
  if ¬ s.alive then .error .useAfterFree
  else
    let r := thread_safe_counter.increment s.cb.strong
    .ok (r.1, { s with cb := { s.cb with strong := r.2 } })

/-- From stdext::ref_weak_counter::decrement: decrements the mirrored strong
count, `assert(count >= 0)`, and calls `on_final_destroy` exactly when the
result is zero.  Returns (return value, new state). -/
def ref_weak_counter.decrement (s : WeakObj) : Except CVio (Int × WeakObj) :=
  if ¬ s.alive then .error .useAfterFree
  else
    let c := (thread_safe_counter.decrement s.cb.strong).1
    if c < 0 then .error .assertNegative
    else if c = 0 then
      .ok (c, ref_weak_counter.on_final_destroy
        { s with cb := { s.cb with strong := c } })
    else
      .ok (c, { s with cb := { s.cb with strong := c } })

/-- From stdext::ref_weak_counter::use_count:
`counter_policy::load(ctrl_block_->strong)`. -/
def ref_weak_counter.use_count (s : WeakObj) : Int :=
  thread_safe_counter.load s.cb.strong

/-! ### stdext::ref_count_ptr (strong handle)

A handle holds `px : Option Nat` (the raw identity, `none` for null).  The
strong counts of all objects are an environment `counts : Nat → Int`; the
handle operations below return the updated environment together with the
updated handle(s). -/

/-- Increments the count of the object `p` points to (no-op on null). -/
def incrementAt (counts : Nat → Int) (p : Option Nat) : Nat → Int :=
  match p with
  | none => counts
  | some i => fun j => if j = i then counts j + 1 else counts j

/-- Decrements the count of the object `p` points to (no-op on null). -/
def decrementAt (counts : Nat → Int) (p : Option Nat) : Nat → Int :=
  match p with
  | none => counts
  | some i => fun j => if j = i then counts j - 1 else counts j

/-- From stdext::ref_count_ptr::ref_count_ptr(T* p, bool add_ref): stores
`px = p` and increments iff `px != 0 && add_ref`.  Returns (new counts,
handle). -/
def ref_count_ptr.mk (counts : Nat → Int) (p : Option Nat) (add_ref : Bool) :
    (Nat → Int) × Option Nat :=
  (if p ≠ none ∧ add_ref then incrementAt counts p else counts, p)

/-- From stdext::ref_count_ptr::detach: returns `px` and nulls the handle
without decrementing.  Returns (new counts, detached raw identity, handle
after). -/
def ref_count_ptr.detach (counts : Nat → Int) (px : Option Nat) :
    (Nat → Int) × Option Nat × Option Nat :=
  (counts, px, none)

/-- From stdext::ref_count_ptr::ref_count_ptr(ref_count_ptr&& rhs):
`px(rhs.px)` then `rhs.px = 0`; no count is touched.  Returns (new counts,
new handle, moved-from handle). -/
def ref_count_ptr.moveCtor (counts : Nat → Int) (rhsPx : Option Nat) :
    (Nat → Int) × Option Nat × Option Nat :=
  (counts, rhsPx, none)

/-- From stdext::ref_count_ptr::operator=(ref_count_ptr&& rhs):
`this_type(move(rhs)).swap(*this)` — a temporary move-constructed from `rhs`
(emptying it, no count change) is swapped with `*this`, then the temporary's
destructor releases the destination's previous reference.  Returns (new
counts, destination handle after, source handle after). -/
def ref_count_ptr.moveAssign (counts : Nat → Int)
    (dstPx rhsPx : Option Nat) : (Nat → Int) × Option Nat × Option Nat :=
  (decrementAt counts dstPx, rhsPx, none)

/-! ### stdext::ref_weak_ptr (weak handle)

A weak handle's `ctrl_block_` member is a strong `ref_count_ptr` to a
control block; in this model it is `Option Nat` (the referenced block's
`blkId`, `none` when empty), and the own-count of the block it references is
threaded explicitly where relevant. -/

/-- From stdext::ref_weak_ptr::ref_weak_ptr(U* p): if `p` is non-null,
copies `p->ctrl_block_` (a `ref_count_ptr` copy, incrementing the block's
own count); no new block is allocated.  Returns (weak handle, object after,
number of control blocks allocated). -/
def ref_weak_ptr.fromRaw (s : WeakObj) : Option Nat × WeakObj × Nat :=
  (some s.cb.blkId,
   { s with cb := { s.cb with
       own := (thread_safe_counter.increment s.cb.own).2 } },
   0)

/-- From the loop of stdext::ref_weak_ptr::lock: `count` is the value
loaded into the local `count` variable, and `interf` gives the actual value
of `ctrl_block_->strong` at each successive CAS attempt where another
thread's update intervened; once `interf` is exhausted there is no further
interference, so the CAS succeeds.  Returns `none` when a zero count was
observed, else `some (observed, new)` where `observed` is the expected value
of the successful CAS and `new = observed + 1` the value it installed. -/
def lockLoop : Int → List Int → Option (Int × Int)
  | count, [] => if count = 0 then none else some (count, count + 1)
  | count, actual :: rest =>
    if count = 0 then none
    else if (thread_safe_counter.compare_exchange_weak actual count
              (count + 1)).1 then
      some (count, count + 1)
    else lockLoop actual rest

/-- From stdext::ref_weak_ptr::lock: null control block returns an empty
handle; otherwise run the CAS loop on the mirrored strong count and, on
success, adopt `ctrl_block_->ptr` into a `ref_count_ptr` constructed with
`add_ref = false` (no further increment).  Returns (result handle, control
block after, counting only this thread's effect). -/
def ref_weak_ptr.lock (cb : Option ref_ctrl_block) (interf : List Int) :
    Option Nat × Option ref_ctrl_block :=
  match cb with
  | none => (none, none)
  | some b =>
    match lockLoop (thread_safe_counter.load b.strong) interf with
    | none => (none, some b)
    | some r => (b.ptr, some { b with strong := r.2 })

/-- From stdext::ref_weak_ptr::expired: `true` on a null control block, else
a single load of the mirrored strong count compared with zero.  Returns
(result, control block after). -/
def ref_weak_ptr.expired (cb : Option ref_ctrl_block) :
    Bool × Option ref_ctrl_block :=
  match cb with
  | none => (true, none)
  | some b => (thread_safe_counter.load b.strong == 0, some b)

/-- From the converting stdext::ref_weak_ptr move constructor taking
`ref_weak_ptr<U>&&`: the
converting constructor taking an rvalue initializes
`ctrl_block_(rhs.ctrl_block_)`, which is a `ref_count_ptr` COPY (increments
the block's own count), and its body leaves `rhs` untouched.  Arguments: the
own count of the block `rhs` references and `rhs`'s block; returns (own
count after, new handle, `rhs` after). -/
def ref_weak_ptr.moveCtorTemplate (own : Int) (rhsCb : Option Nat) :
    Int × Option Nat × Option Nat :=
  match rhsCb with
  | none => (own, none, none)
  | some b => ((thread_safe_counter.increment own).2, some b, some b)

/-! ### Claim C3's spec-side property

Modelled from the spec: "created lazily, at most once per object, the first
time a weak reference is requested" — lazy creation would mean that
constructing the object allocates no control block. -/

/-- Modelled from the spec: lazy control-block creation — object
construction itself allocates no control block. -/
def spec_lazy_ctrl_block_creation : Prop :=
  ∀ objId blkId : Nat, (ref_weak_counter.mk objId blkId).2 = 0

/-! ## Helper lemmas -/

/-- Unfolding of a successful `ref_counter.increment`. -/
theorem increment_ok {s : RefCounter} {c : Int} {s' : RefCounter}
    (h : ref_counter.increment s = .ok (c, s')) :
    s.destroyed = false ∧ c = s.count + 1 ∧
      s' = { s with count := s.count + 1 } := by
  unfold ref_counter.increment at h
  split at h
  · exact Except.noConfusion h
  · rename_i hd
    simp only [Bool.not_eq_true] at hd
    simp [thread_safe_counter.increment] at h
    exact ⟨hd, h.1.symm, h.2.symm⟩

/-- Unfolding of a successful `ref_counter.decrement`. -/
theorem decrement_ok {s : RefCounter} {c : Int} {s' : RefCounter}
    (h : ref_counter.decrement s = .ok (c, s')) :
    s.destroyed = false ∧ c = s.count - 1 ∧ 0 ≤ c ∧ s'.count = c ∧
      (c = 0 → s'.destroyed = true ∧ s'.hookRuns = s.hookRuns + 1) ∧
      (c ≠ 0 → s'.destroyed = s.destroyed ∧ s'.hookRuns = s.hookRuns) := by
  unfold ref_counter.decrement at h
  split at h
  · exact Except.noConfusion h
  · rename_i hd
    simp only [Bool.not_eq_true] at hd
    simp only [thread_safe_counter.decrement] at h
    split at h
    · exact Except.noConfusion h
    · rename_i hneg
      split at h
      · rename_i hz
        simp at h
        obtain ⟨hc, hs⟩ := h
        subst hc
        subst hs
        exact ⟨hd, rfl, by omega, rfl, fun _ => ⟨rfl, rfl⟩,
          fun hne => absurd hz hne⟩
      · rename_i hz
        simp at h
        obtain ⟨hc, hs⟩ := h
        subst hc
        subst hs
        exact ⟨hd, rfl, by omega, rfl, fun hzz => absurd hzz hz,
          fun _ => ⟨rfl, rfl⟩⟩

/-- A run starting from reclaimed storage succeeds only if it does
nothing. -/
theorem runOps_destroyed {ops : List Op} :
    ∀ {s s' : RefCounter}, s.destroyed = true → runOps s ops = .ok s' →
      ops = [] ∧ s' = s := by
  cases ops with
  | nil =>
    intro s s' _ h
    simp [runOps] at h
    exact ⟨rfl, h.symm⟩
  | cons op rest =>
    intro s s' hd h
    cases op <;>
      simp [runOps, ref_counter.increment, ref_counter.decrement, hd,
        bind, Except.bind] at h

/-- The count after a successful run is the initial count plus increments
minus decrements. -/
theorem runOps_count {ops : List Op} :
    ∀ {s s' : RefCounter}, runOps s ops = .ok s' →
      s'.count = s.count + (numIncs ops : Int) - (numDecs ops : Int) := by
  induction ops with
  | nil =>
    intro s s' h
    simp [runOps] at h
    simp [← h, numIncs, numDecs]
  | cons op rest ih =>
    intro s s' h
    cases op with
    | inc =>
      simp only [runOps, bind, Except.bind] at h
      cases hstep : ref_counter.increment s with
      | error e => rw [hstep] at h; simp at h
      | ok r =>
        rw [hstep] at h
        obtain ⟨_, _, hs2⟩ := @increment_ok s r.1 r.2 (by rw [hstep])
        have := ih h
        rw [hs2] at this
        simp only [numIncs, numDecs, List.countP_cons] at *
        simp at *
        omega
    | dec =>
      simp only [runOps, bind, Except.bind] at h
      cases hstep : ref_counter.decrement s with
      | error e => rw [hstep] at h; simp at h
      | ok r =>
        rw [hstep] at h
        obtain ⟨_, hc, _, hcount, _, _⟩ :=
          @decrement_ok s r.1 r.2 (by rw [hstep])
        have := ih h
        rw [hcount, hc] at this
        simp only [numIncs, numDecs, List.countP_cons] at *
        simp at *
        omega

/-- Bookkeeping along a successful run from a live object: the count stays
nonnegative, the hook runs exactly once if the run ends destroyed and never
otherwise, and a live, nonempty run ends with a positive count. -/
theorem runOps_live {ops : List Op} :
    ∀ {s s' : RefCounter}, s.destroyed = false → 0 ≤ s.count →
      runOps s ops = .ok s' →
      0 ≤ s'.count ∧
      (s'.destroyed = true → s'.hookRuns = s.hookRuns + 1 ∧ s'.count = 0) ∧
      (s'.destroyed = false → s'.hookRuns = s.hookRuns ∧
        (ops = [] ∧ s' = s ∨ 0 < s'.count)) := by
  induction ops with
  | nil =>
    intro s s' hd hc h
    simp [runOps] at h
    subst h
    refine ⟨hc, ?_, ?_⟩
    · intro ht; rw [ht] at hd; cases hd
    · intro _; exact ⟨rfl, Or.inl ⟨rfl, rfl⟩⟩
  | cons op rest ih =>
    intro s s' hd hc h
    cases op with
    | inc =>
      simp only [runOps, bind, Except.bind] at h
      cases hstep : ref_counter.increment s with
      | error e => rw [hstep] at h; simp at h
      | ok r =>
        rw [hstep] at h
        obtain ⟨_, _, hs2⟩ := @increment_ok s r.1 r.2 (by rw [hstep])
        have h2 : r.2.destroyed = false := by rw [hs2]; exact hd
        have h3 : 0 ≤ r.2.count := by rw [hs2]; simp; omega
        obtain ⟨ha, hb, hcl⟩ := ih h2 h3 h
        refine ⟨ha, ?_, ?_⟩
        · intro ht
          obtain ⟨hr, hz⟩ := hb ht
          rw [hs2] at hr
          exact ⟨hr, hz⟩
        · intro hf
          obtain ⟨hr, hor⟩ := hcl hf
          rw [hs2] at hr
          refine ⟨hr, Or.inr ?_⟩
          rcases hor with ⟨_, hse⟩ | hpos
          · rw [hse, hs2]; simp; omega
          · exact hpos
    | dec =>
      simp only [runOps, bind, Except.bind] at h
      cases hstep : ref_counter.decrement s with
      | error e => rw [hstep] at h; simp at h
      | ok r =>
        rw [hstep] at h
        obtain ⟨_, hcval, hcnn, hcount, hifz, hifnz⟩ :=
          @decrement_ok s r.1 r.2 (by rw [hstep])
        by_cases hz : r.1 = 0
        · obtain ⟨hdes, hruns⟩ := hifz hz
          obtain ⟨hrest, hse⟩ := runOps_destroyed hdes h
          subst hse
          refine ⟨by omega, ?_, ?_⟩
          · intro _
            exact ⟨hruns, by omega⟩
          · intro hf; rw [hdes] at hf; cases hf
        · obtain ⟨hdes, hruns⟩ := hifnz hz
          rw [hd] at hdes
          have h3 : 0 ≤ r.2.count := by omega
          obtain ⟨ha, hb, hcl⟩ := ih hdes h3 h
          refine ⟨ha, ?_, ?_⟩
          · intro ht
            obtain ⟨hr, hzz⟩ := hb ht
            rw [hruns] at hr
            exact ⟨hr, hzz⟩
          · intro hf
            obtain ⟨hr, hor⟩ := hcl hf
            rw [hruns] at hr
            refine ⟨hr, Or.inr ?_⟩
            rcases hor with ⟨_, hse⟩ | hpos
            · rw [hse]; omega
            · exact hpos

/-- Observing zero makes the promotion loop give up at once, whatever
interference follows. -/
theorem lockLoop_zero (interf : List Int) : lockLoop 0 interf = none := by
  cases interf <;> simp [lockLoop]

/-- A successful promotion loop run succeeded by a CAS whose expected value
`obs` was nonzero and installed exactly `obs + 1`. -/
theorem lockLoop_some {interf : List Int} :
    ∀ {count obs v : Int}, lockLoop count interf = some (obs, v) →
      obs ≠ 0 ∧ v = obs + 1 := by
  induction interf with
  | nil =>
    intro count obs v h
    by_cases hc : count = 0
    · simp [lockLoop, hc] at h
    · simp [lockLoop, hc] at h
      exact ⟨h.1 ▸ hc, by omega⟩
  | cons actual rest ih =>
    intro count obs v h
    by_cases hc : count = 0
    · simp [lockLoop, hc] at h
    · by_cases hcas : actual = count
      · simp [lockLoop, hc, thread_safe_counter.compare_exchange_weak,
          hcas] at h
        exact ⟨h.1 ▸ hc, by omega⟩
      · simp [lockLoop, hc, thread_safe_counter.compare_exchange_weak,
          hcas] at h
        exact ih h

/-! ## Claims -/

/-- C1: `lock()` returns an empty handle whenever the observed strong count
is zero (promotion from zero is impossible, whatever interference the CAS
loop meets); otherwise it compare-and-swaps from the observed value to
observed + 1 and, on success, returns a handle adopting the control block's
cached object with no additional increment, so a successful promotion
raises the strong count by exactly one. -/
theorem c1_lock_promotion :
    (∀ interf : List Int, lockLoop 0 interf = none) ∧
    (∀ (count obs v : Int) (interf : List Int),
      lockLoop count interf = some (obs, v) → obs ≠ 0 ∧ v = obs + 1) ∧
    (∀ (b : ref_ctrl_block) (interf : List Int) (obs v : Int),
      lockLoop (thread_safe_counter.load b.strong) interf = some (obs, v) →
      ref_weak_ptr.lock (some b) interf =
        (b.ptr, some { b with strong := obs + 1 })) ∧
    (∀ (b : ref_ctrl_block) (interf : List Int),
      lockLoop (thread_safe_counter.load b.strong) interf = none →
      ref_weak_ptr.lock (some b) interf = (none, some b)) := by
  refine ⟨lockLoop_zero, fun _ _ _ _ h => lockLoop_some h, ?_, ?_⟩
  · intro b interf obs v h
    have hv := (lockLoop_some h).2
    simp only [ref_weak_ptr.lock, h]
    rw [hv]
  · intro b interf h
    simp only [ref_weak_ptr.lock, h]

/-- C1 witness: with strong count 3 and no interference, promotion succeeds,
returns the cached object 7, and leaves the strong count at 4. -/
theorem c1_lock_promotion_witness :
    ref_weak_ptr.lock (some ⟨1, 1, 3, some 7⟩) [] =
      (some 7, some ⟨1, 1, 4, some 7⟩) :=
  c1_lock_promotion.2.2.1 ⟨1, 1, 3, some 7⟩ [] 3 4 (by decide)

/-- C2 counterexample: on an object with strong count 1 (own count 2: the
object plus one weak handle), the final decrement reclaims the object's
storage yet leaves the control block's cached identity at `some 7` — the
disposal path never sets it to null. -/
theorem c2_counterexample :
    ref_weak_counter.decrement ⟨7, true, ⟨1, 2, 1, some 7⟩, true⟩ =
      .ok (0, ⟨7, false, ⟨1, 1, 0, some 7⟩, true⟩) ∧
    (⟨7, false, ⟨1, 1, 0, some 7⟩, true⟩ : WeakObj).alive = false ∧
    (⟨7, false, ⟨1, 1, 0, some 7⟩, true⟩ : WeakObj).cb.ptr ≠ none :=
  ⟨rfl, rfl, by decide⟩

/-- C2 (amended): when the strong count reaches zero, the disposal path
destroys the object and releases the object's implicit reference on the
control block (its own count drops by one; the block is freed when that
count reaches zero); the cached identity is left unchanged — it is never
cleared — and the mirrored strong count is zero. -/
theorem c2_disposal_keeps_identity :
    ∀ (s : WeakObj) (c : Int) (s' : WeakObj),
      ref_weak_counter.decrement s = .ok (c, s') → c = 0 →
      s'.alive = false ∧ s'.cb.ptr = s.cb.ptr ∧
      s'.cb.own = s.cb.own - 1 ∧ s'.cb.strong = 0 ∧
      s'.cbAlive = (if s.cb.own - 1 = 0 then false else s.cbAlive) := by
  intro s c s' h hc
  subst hc
  unfold ref_weak_counter.decrement at h
  split at h
  · exact Except.noConfusion h
  · simp only [thread_safe_counter.decrement] at h
    split at h
    · exact Except.noConfusion h
    · split at h
      · rename_i hz
        simp only [ref_weak_counter.on_final_destroy,
          thread_safe_counter.decrement, Except.ok.injEq,
          Prod.mk.injEq] at h
        rw [← h.2]
        exact ⟨rfl, rfl, rfl, hz, rfl⟩
      · rename_i hz
        simp at h
        exact absurd h.1 hz

/-- C2 witness: the final decrement on a concrete object destroys it while
the cached identity stays what it was. -/
theorem c2_disposal_keeps_identity_witness :
    (ref_weak_counter.decrement ⟨9, true, ⟨2, 3, 1, some 9⟩, false⟩ =
      .ok (0, ⟨9, false, ⟨2, 2, 0, some 9⟩, false⟩)) ∧
    (⟨9, false, ⟨2, 2, 0, some 9⟩, false⟩ : WeakObj).cb.ptr =
      (⟨9, true, ⟨2, 3, 1, some 9⟩, false⟩ : WeakObj).cb.ptr :=
  ⟨rfl, (c2_disposal_keeps_identity ⟨9, true, ⟨2, 3, 1, some 9⟩, false⟩ 0
    ⟨9, false, ⟨2, 2, 0, some 9⟩, false⟩ rfl rfl).2.1⟩

/-- C3 counterexample: constructing a weak-capable object allocates its
control block immediately — one allocation during construction, before any
weak reference has been requested — so creation is not lazy. -/
theorem c3_counterexample :
    (ref_weak_counter.mk 7 1).2 = 1 ∧ ¬ spec_lazy_ctrl_block_creation :=
  ⟨rfl, fun h => absurd (h 7 1) (by decide)⟩

/-- C3 (amended): the control block is created eagerly — constructing the
object allocates exactly one block (strong count 0, own count 1 for the
object's implicit reference, caching the object's identity) — and
requesting a weak reference allocates nothing: it hands out the one block
installed at construction with its own count incremented, so exactly one
control block per object is ever visible. -/
theorem c3_eager_unique_block :
    ∀ objId blkId : Nat,
      ref_weak_counter.mk objId blkId =
        (⟨objId, true, ⟨blkId, 1, 0, some objId⟩, true⟩, 1) ∧
      ref_weak_ptr.fromRaw (ref_weak_counter.mk objId blkId).1 =
        (some blkId, ⟨objId, true, ⟨blkId, 2, 0, some objId⟩, true⟩, 0) := by
  intro objId blkId
  exact ⟨rfl, rfl⟩

/-- C4: decrement subtracts one and invokes the disposal hook exactly when
the result is zero — never when the count stays positive — for both the
strong-only counter and the weak-capable counter; over any nonempty
balanced sequence of increments and decrements on a fresh object the hook
runs exactly once, precisely at the final zero transition. -/
theorem c4_hook_exactly_once :
    (∀ (s : RefCounter) (c : Int) (s' : RefCounter),
      ref_counter.decrement s = .ok (c, s') →
      c = s.count - 1 ∧ (s'.hookRuns = s.hookRuns + 1 ↔ c = 0) ∧
      (0 < c → s'.hookRuns = s.hookRuns ∧ s'.destroyed = s.destroyed)) ∧
    (∀ (w : WeakObj) (c : Int) (w' : WeakObj),
      ref_weak_counter.decrement w = .ok (c, w') →
      (w'.alive = false ↔ c = 0)) ∧
    (∀ (ops : List Op) (s' : RefCounter), ops ≠ [] →
      numIncs ops = numDecs ops → runOps ref_counter.mk ops = .ok s' →
      s'.hookRuns = 1 ∧ s'.destroyed = true ∧ s'.count = 0) := by
  refine ⟨?_, ?_, ?_⟩
  · intro s c s' h
    obtain ⟨hd, hc, hnn, hcount, hifz, hifnz⟩ := decrement_ok h
    refine ⟨hc, ⟨?_, fun hz => (hifz hz).2⟩, ?_⟩
    · intro hr
      by_contra hne
      have := (hifnz hne).2
      omega
    · intro hpos
      obtain ⟨h1, h2⟩ := hifnz (by omega)
      exact ⟨h2, h1⟩
  · intro w c w' h
    unfold ref_weak_counter.decrement at h
    split at h
    · exact Except.noConfusion h
    · rename_i halive
      rw [not_not] at halive
      simp only [thread_safe_counter.decrement] at h
      split at h
      · exact Except.noConfusion h
      · split at h
        · rename_i hz
          simp only [Except.ok.injEq, Prod.mk.injEq] at h
          obtain ⟨h1, h2⟩ := h
          rw [← h2]
          constructor
          · intro _
            omega
          · intro _
            simp [ref_weak_counter.on_final_destroy]
        · rename_i hz
          simp only [Except.ok.injEq, Prod.mk.injEq] at h
          obtain ⟨h1, h2⟩ := h
          rw [← h2]
          simp [halive]
          omega
  · intro ops s' hne hbal hrun
    have hcnt := runOps_count hrun
    have hlive := @runOps_live ops ref_counter.mk s' rfl (by decide) hrun
    have hzero : s'.count = 0 := by
      rw [hbal] at hcnt
      simp [ref_counter.mk] at hcnt
      omega
    by_cases hdes : s'.destroyed = true
    · obtain ⟨hr, _⟩ := hlive.2.1 hdes
      exact ⟨by simpa [ref_counter.mk] using hr, hdes, hzero⟩
    · exfalso
      simp only [Bool.not_eq_true] at hdes
      obtain ⟨_, hor⟩ := hlive.2.2 hdes
      rcases hor with ⟨hnil, _⟩ | hpos
      · exact hne hnil
      · omega

/-- C4 witness: one increment then one decrement on a fresh object runs the
hook exactly once, at the zero transition. -/
theorem c4_hook_exactly_once_witness :
    ([Op.inc, Op.dec] ≠ ([] : List Op)) ∧
    numIncs [Op.inc, Op.dec] = numDecs [Op.inc, Op.dec] ∧
    runOps ref_counter.mk [Op.inc, Op.dec] =
      .ok { count := 0, destroyed := true, hookRuns := 1 } ∧
    ({ count := 0, destroyed := true, hookRuns := 1 } : RefCounter).hookRuns
      = 1 :=
  ⟨by decide, by decide, rfl,
    (c4_hook_exactly_once.2.2 [Op.inc, Op.dec]
      { count := 0, destroyed := true, hookRuns := 1 }
      (by decide) (by decide) rfl).1⟩

/-- C5 counterexample: the historical Cmm variant's thread-safe counter
uses an unsigned count — decrementing zero silently wraps to 4294967295 and
that wrapped value is returned as an ordinary result (the release helper
does not even delete the object) — so there a decrement that would produce
a negative value is neither on a signed integer nor detected by any
assertion. -/
theorem c5_counterexample :
    Cmm.thread_safe_counter.decrement 0 = 4294967295 ∧
    Cmm.ref_counter_release 0 = (4294967295, false) :=
  ⟨rfl, rfl⟩

/-- C5 (amended): the canonical stdext counter's count is a signed integer:
a successful decrement never yields a negative count, and a decrement that
would produce a negative value yields the fail-fast assertion error rather
than any ok value; the historical Cmm variant instead uses an unsigned
count that silently wraps. -/
theorem c5_decrement_never_negative :
    (∀ (s : RefCounter) (c : Int) (s' : RefCounter),
      ref_counter.decrement s = .ok (c, s') → 0 ≤ c ∧ 0 ≤ s'.count) ∧
    (∀ s : RefCounter, s.destroyed = false → s.count - 1 < 0 →
      ref_counter.decrement s = .error CVio.assertNegative) := by
  constructor
  · intro s c s' h
    obtain ⟨_, _, hnn, hcount, _, _⟩ := decrement_ok h
    exact ⟨hnn, by omega⟩
  · intro s hd hneg
    unfold ref_counter.decrement
    simp [hd, thread_safe_counter.decrement, hneg]

/-- C5 witness: decrementing a fresh object (count 0) trips the
assertion. -/
theorem c5_decrement_never_negative_witness :
    (ref_counter.mk.destroyed = false) ∧
    (ref_counter.mk.count - 1 < 0) ∧
    ref_counter.decrement ref_counter.mk = .error CVio.assertNegative :=
  ⟨rfl, by decide,
    c5_decrement_never_negative.2 ref_counter.mk rfl (by decide)⟩

/-- C6: the converting move constructor of the weak handle does not move —
applied to an rvalue handle referencing a control block with own count 1 it
raises that count to 2 and leaves the source still referencing the block —
whereas the strong handle's move constructor transfers ownership with no
count change and empties its source. -/
theorem c6_weak_move_ctor_copies :
    ref_weak_ptr.moveCtorTemplate 1 (some 5) = (2, some 5, some 5) ∧
    ref_count_ptr.moveCtor (fun _ => 1) (some 5) =
      ((fun _ => 1), some 5, none) :=
  ⟨rfl, rfl⟩

/-- C7: `expired()` is a single snapshot of the mirrored strong count: true
exactly when the loaded count is zero, false while it is positive, and the
state is left untouched. -/
theorem c7_expired_snapshot :
    ∀ b : ref_ctrl_block,
      ((ref_weak_ptr.expired (some b)).1 = true ↔
        thread_safe_counter.load b.strong = 0) ∧
      (0 < b.strong → (ref_weak_ptr.expired (some b)).1 = false) ∧
      (ref_weak_ptr.expired (some b)).2 = some b := by
  intro b
  refine ⟨?_, ?_, rfl⟩
  · simp [ref_weak_ptr.expired, thread_safe_counter.load]
  · intro h
    simp [ref_weak_ptr.expired, thread_safe_counter.load]
    omega

/-- C7 witness: a block with strong count 3 is not expired. -/
theorem c7_expired_snapshot_witness :
    (0 : Int) < 3 ∧
    (ref_weak_ptr.expired (some ⟨4, 1, 3, some 8⟩)).1 = false :=
  ⟨by decide, (c7_expired_snapshot ⟨4, 1, 3, some 8⟩).2.1 (by decide)⟩

/-- C8: on a non-empty handle, `detach()` returns the raw identity without
touching any count and empties the handle, and re-adopting that identity
with the increment suppressed (`add_ref = false`) restores the original
handle with zero net change to the counts. -/
theorem c8_detach_round_trip :
    ∀ (counts : Nat → Int) (px : Option Nat), px ≠ none →
      ref_count_ptr.detach counts px = (counts, px, none) ∧
      ref_count_ptr.mk counts px false = (counts, px) := by
  intro counts px _
  refine ⟨rfl, ?_⟩
  simp [ref_count_ptr.mk]

/-- C8 witness: detach and re-adopt of the identity 3 under a concrete
count environment. -/
theorem c8_detach_round_trip_witness :
    ((some 3 : Option Nat) ≠ none) ∧
    ref_count_ptr.mk (fun _ => 1) (some 3) false = ((fun _ => 1), some 3) :=
  ⟨by decide, (c8_detach_round_trip (fun _ => 1) (some 3) (by decide)).2⟩

/-- C9: copy-constructing a counted object initializes the new object's
count to zero regardless of the source's count (the weak-capable copy
constructor gives the new object a fresh control block with strong count
zero and own count one), and copy assignment leaves both objects
unchanged. -/
theorem c9_copy_semantics :
    (∀ src : RefCounter, (ref_counter.copyCtor src).count = 0) ∧
    (∀ dst src : RefCounter, ref_counter.assign dst src = (dst, src)) ∧
    (∀ (src : WeakObj) (objId blkId : Nat),
      (ref_weak_counter.copyCtor src objId blkId).1.cb.strong = 0 ∧
      (ref_weak_counter.copyCtor src objId blkId).1.cb.own = 1) ∧
    (∀ dst src : WeakObj, ref_weak_counter.assign dst src = (dst, src)) :=
  ⟨fun _ => rfl, fun _ _ => rfl, fun _ _ _ => ⟨rfl, rfl⟩, fun _ _ => rfl⟩

/-- C10: on a default-constructed weak handle (null control block), `lock()`
returns an empty strong handle whatever interference occurs and `expired()`
returns true; neither dereferences the null block. -/
theorem c10_empty_weak_handle :
    (∀ interf : List Int, ref_weak_ptr.lock none interf = (none, none)) ∧
    ref_weak_ptr.expired none = (true, none) :=
  ⟨fun _ => rfl, rfl⟩

end RefSpec
